import Mathlib

/-!
# Verification of `slack_hubspot_report.py`

A shallow embedding of the core logic of the report job
(`src/slack_hubspot_report.py`) together with proofs about it.

Modelling conventions:
* Python strings are modelled as lists of Unicode code points (`PyStr := List Nat`);
  `cps` converts a Lean string literal to that representation.
* Python dicts are modelled as association lists in insertion order.  Assignment to
  an existing key keeps the key at its original position and overwrites the value,
  exactly like CPython dicts; all dicts in the program are built from the empty dict
  through `dictInsert`, so their keys are unique.
* The character classes of the regular expression `[^\w\sÀ-ÿ-]` and of
  `str.lower` / `str.strip` follow the Unicode tables used by CPython.  They are
  reproduced exactly on the range U+0000..U+00FF (the range the À-ÿ class and the
  labels of the program itself live in) and at every code point above U+00FF this
  development evaluates: the Unicode space characters, the dashes U+2013/U+2014
  and the camera emoji U+1F4F7 met by the program, and the letters İ (U+0130)
  and μ (U+03BC) together with the combining dot above (U+0307), which exhibit
  the one-to-many full lowercase mapping of `str.lower`.  Remaining code points
  above U+00FF are classified as non-word and left fixed by lowercasing; they
  are never reached.
* Network interaction is modelled by explicit response values: the pipelines
  GET request yields an `Except Nat (List Pipeline)` (`Except.error status` is the
  `requests.HTTPError` that `raise_for_status` raises on a non-2xx status) and the
  paginated ticket search yields the list of responses the endpoint returns to the
  successive POSTs of the loop.
-/

/-- A Python string: the list of its Unicode code points. -/
abbrev PyStr := List Nat

/-- Code points of a Lean string literal, to write `PyStr` constants. -/
def cps (s : String) : PyStr := s.data.map Char.toNat

/-- Python regex `\w` (word character), exact on U+0000..U+00FF: ASCII alphanumerics
and underscore, the Latin-1 letters and numeric signs (ª µ º ² ³ ¹ ¼ ½ ¾ and
U+00C0..U+00FF except × ÷).  Above U+00FF the classification is exact for every
code point this development evaluates: the letters İ (U+0130, category Lu) and
μ (U+03BC, category Ll, the lowercase of µ) are word characters, while the
combining dot above (U+0307, category Mn, not Other_Alphabetic), the dashes
– —, and the camera emoji are not; all other code points above U+00FF are
classified as non-word and never reached. -/
def py_isWord (c : Nat) : Bool :=
  decide ((48 ≤ c ∧ c ≤ 57) ∨ (65 ≤ c ∧ c ≤ 90) ∨ c = 95 ∨ (97 ≤ c ∧ c ≤ 122) ∨
    c = 0xAA ∨ c = 0xB2 ∨ c = 0xB3 ∨ c = 0xB5 ∨ c = 0xB9 ∨ c = 0xBA ∨
    c = 0xBC ∨ c = 0xBD ∨ c = 0xBE ∨
    (0xC0 ≤ c ∧ c ≤ 0xFF ∧ c ≠ 0xD7 ∧ c ≠ 0xF7) ∨
    c = 0x130 ∨ c = 0x3BC)

/-- Python regex `\s` and `str.strip` whitespace: the Unicode whitespace table used
by CPython (`Py_UNICODE_ISSPACE`). -/
def py_isSpace (c : Nat) : Bool :=
  decide ((9 ≤ c ∧ c ≤ 13) ∨ (28 ≤ c ∧ c ≤ 32) ∨ c = 0x85 ∨ c = 0xA0 ∨
    c = 0x1680 ∨ (0x2000 ≤ c ∧ c ≤ 0x200A) ∨ c = 0x2028 ∨ c = 0x2029 ∨
    c = 0x202F ∨ c = 0x205F ∨ c = 0x3000)

/-- The character class kept by `re.sub(r"[^\w\sÀ-ÿ-]", "", txt)`:
word characters, whitespace, U+00C0..U+00FF, and the ASCII hyphen. -/
def py_keep (c : Nat) : Bool :=
  py_isWord c || py_isSpace c || decide (0xC0 ≤ c ∧ c ≤ 0xFF) || decide (c = 45)

/-- `str.lower`: CPython applies the full Unicode lowercase mapping to each code
point and concatenates, so one code point can lower to several.  Exact on
U+0000..U+00FF (ASCII `A`-`Z` and the Latin-1 capitals U+00C0..U+00DE except ×
shift by 32, the micro sign µ lowers to Greek μ, the rest is fixed) and at
İ (U+0130), whose full lowercase per SpecialCasing.txt is the two code points
i (U+0069) and combining dot above (U+0307).  Other code points above U+00FF are
fixed; none of them is ever lowercased in this development. -/
def py_lower (c : Nat) : List Nat :=
  if 65 ≤ c ∧ c ≤ 90 then [c + 32]
  else if c = 0xB5 then [0x3BC]
  else if 0xC0 ≤ c ∧ c ≤ 0xDE ∧ c ≠ 0xD7 then [c + 32]
  else if c = 0x130 then [0x69, 0x307]
  else [c]

/-- The single code point `py_lower c` consists of, for every `c` other than
İ (U+0130): on those code points the full lowercase mapping is one-to-one. -/
def py_lower1 (c : Nat) : Nat :=
  if 65 ≤ c ∧ c ≤ 90 then c + 32
  else if c = 0xB5 then 0x3BC
  else if 0xC0 ≤ c ∧ c ≤ 0xDE ∧ c ≠ 0xD7 then c + 32
  else c

/-- `str.strip`: drop whitespace from the front, then from the back. -/
def py_strip (s : PyStr) : PyStr :=
  ((s.dropWhile py_isSpace).reverse.dropWhile py_isSpace).reverse

/-- The two replacements `txt.replace("–", "-").replace("—", "-")`:
en dash U+2013 and em dash U+2014 become the ASCII hyphen 45. -/
def dash_to_hyphen (c : Nat) : Nat :=
  if c = 0x2013 ∨ c = 0x2014 then 45 else c

/-- `normalize_label` from the source: unify dashes to `-`, delete every character
outside `[\w\sÀ-ÿ-]`, strip, lowercase (full mapping, hence `flatMap`). -/
def normalize_label (txt : PyStr) : PyStr :=
  (py_strip ((txt.map dash_to_hyphen).filter py_keep)).flatMap py_lower

/-! ## Python dicts

Insertion-ordered association lists.  `dictInsert` models `d[k] = v`: an existing
key keeps its position and gets the new value, a fresh key is appended.  Every
dict the program builds starts from `[]`, so keys are unique and `dictGet`
(first match) agrees with the Python `d.get(k)`. -/

/-- A Python dict with string keys, in insertion order. -/
abbrev PyDict (α : Type) := List (PyStr × α)

/-- `k in d`. -/
def dictMem {α : Type} : PyDict α → PyStr → Bool
  | [], _ => false
  | kv :: rest, k => decide (kv.1 = k) || dictMem rest k

/-- Overwrite the value at an existing key, keeping its position. -/
def dictSet {α : Type} : PyDict α → PyStr → α → PyDict α
  | [], _, _ => []
  | kv :: rest, k, v => if kv.1 = k then (kv.1, v) :: dictSet rest k v else kv :: dictSet rest k v

/-- `d[k] = v`. -/
def dictInsert {α : Type} (d : PyDict α) (k : PyStr) (v : α) : PyDict α :=
  if dictMem d k then dictSet d k v else d ++ [(k, v)]

/-- `d.get(k)`. -/
def dictGet {α : Type} : PyDict α → PyStr → Option α
  | [], _ => none
  | kv :: rest, k => if kv.1 = k then some kv.2 else dictGet rest k

/-- `list(d.keys())`. -/
def dictKeys {α : Type} (d : PyDict α) : List PyStr := d.map (·.1)

/-- `d1.update(d2)`: assign every pair of `d2` into `d1`, in order. -/
def dictUpdate {α : Type} (d1 d2 : PyDict α) : PyDict α :=
  d2.foldl (fun d kv => dictInsert d kv.1 kv.2) d1

/-- A dict built from a list of key-value pairs (dict comprehension). -/
def dictOfList {α : Type} (l : List (PyStr × α)) : PyDict α := dictUpdate [] l

/-! ## Data model and network responses -/

/-- A stage object of the pipelines response: `{"label": ..., "id": ...}`. -/
structure Stage where
  label : PyStr
  id : PyStr
  deriving DecidableEq, Repr

/-- A pipeline object of the pipelines response. -/
structure Pipeline where
  id : PyStr
  label : PyStr
  stages : List Stage
  deriving DecidableEq, Repr

/-- One response body of the paginated ticket search: the `results` array (whose
items are opaque here, only the length is used) and `paging.next.after`
(`none` when any of `paging`, `next`, `after` is missing). -/
structure SearchPage where
  results : List Nat
  after : Option PyStr
  deriving DecidableEq, Repr

/-- The exceptions the embedded code can raise.  `HttpError status` is the
`requests.HTTPError` raised by `raise_for_status`; the two others are the
`RuntimeError`s of `get_pipeline_and_stages` (pipeline-id or pipeline-name hint
matching nothing, and neither hint provided). -/
inductive AppError where
  | HttpError (status : Nat)
  | PipelineNotFound
  | ConfigurationMissing
  deriving DecidableEq, Repr

/-- Python truthiness of an optional string: `None` and `""` are falsy. -/
def truthyS : Option PyStr → Bool
  | none => false
  | some s => !s.isEmpty

/-- The process environment: `os.getenv` with no default. -/
abbrev EnvMap := String → Option PyStr

/-- `os.getenv(key, default)`: the default applies only when the variable is unset. -/
def getenvD (env : EnvMap) (key : String) (dflt : PyStr) : PyStr :=
  (env key).getD dflt

/-- The HubSpot side of the world: the (one) response to the pipelines GET, and,
for each `(pipelineId, stageId)` search, the responses the search endpoint gives
to the successive POSTs of the loop, in request order.  `Except.error status` is the
`HTTPError` of a non-2xx response. -/
structure HsWorld where
  pipelines : Except Nat (List Pipeline)
  search : PyStr → PyStr → List (Except Nat SearchPage)

/-! ## Embedded program functions -/

/-- `get_pipeline_and_stages`: pick the pipeline by id hint first, else by
name hint (label compared lowercased after strip), else fail; return its id and
the `{label: stageId}` dict.  `resp` is the outcome of `hs_get(...pipelines...)`. -/
def get_pipeline_and_stages (resp : Except Nat (List Pipeline))
    (pipeline_name_env pipeline_id_env : Option PyStr) :
    Except AppError (PyStr × PyDict PyStr) :=
  match resp with
  | Except.error e => Except.error (AppError.HttpError e)
  | Except.ok results =>
    let chosen : Except AppError (Option Pipeline) :=
      if truthyS pipeline_id_env then
        match results.find? (fun p => p.id == pipeline_id_env.getD []) with
        | some p => Except.ok (some p)
        | none => Except.error AppError.PipelineNotFound
      else Except.ok none
    match chosen with
    | Except.error e => Except.error e
    | Except.ok chosen =>
      let chosen : Except AppError (Option Pipeline) :=
        if chosen.isNone && truthyS pipeline_name_env then
          let wanted := (py_strip (pipeline_name_env.getD [])).map py_lower
          match results.find? (fun p => (py_strip p.label).map py_lower == wanted) with
          | some p => Except.ok (some p)
          | none => Except.error AppError.PipelineNotFound
        else Except.ok chosen
      match chosen with
      | Except.error e => Except.error e
      | Except.ok none => Except.error AppError.ConfigurationMissing
      | Except.ok (some p) =>
        Except.ok (p.id, dictOfList (p.stages.map (fun st => (st.label, st.id))))

/-- Truthiness of `paging.next.after`: the loop continues only on a non-empty
cursor string (`if not after: break`). -/
def cursorPresent : Option PyStr → Bool
  | none => false
  | some s => !s.isEmpty

/-- The pagination loop of `count_tickets_in_stage` over the stream of search
responses: add `len(results)` of each page, continue while the cursor is truthy,
re-raise an `HTTPError` as soon as one request fails.  The `[]` case (server
stops answering) is unreachable for a well-formed response chain. -/
def count_tickets_in_stage : List (Except Nat SearchPage) → Except Nat Nat
  | [] => Except.ok 0
  | Except.error e :: _ => Except.error e
  | Except.ok page :: rest =>
    if cursorPresent page.after then
      match count_tickets_in_stage rest with
      | Except.ok n => Except.ok (page.results.length + n)
      | Except.error e => Except.error e
    else Except.ok page.results.length

/-- The per-label loop of `fetch_ticket_metrics`: for each configured label in
order, look its normalized form up in the normalized stage map; on a falsy hit
record 0 and a warning, otherwise run the stage counter (re-raising its
`HTTPError`) and record its result. -/
def process_labels (search : PyStr → PyStr → List (Except Nat SearchPage))
    (pipeline_id : PyStr) (norm_stage_map : PyDict PyStr) :
    List PyStr → PyDict Nat → List PyStr → Except AppError (PyDict Nat × List PyStr)
  | [], metrics, warns => Except.ok (metrics, warns)
  | label :: rest, metrics, warns =>
    let stage_id := dictGet norm_stage_map (normalize_label label)
    if truthyS stage_id then
      match count_tickets_in_stage (search pipeline_id (stage_id.getD [])) with
      | Except.ok n => process_labels search pipeline_id norm_stage_map rest
          (dictInsert metrics label n) warns
      | Except.error e => Except.error (AppError.HttpError e)
    else
      process_labels search pipeline_id norm_stage_map rest
        (dictInsert metrics label 0) (warns ++ [label])

/-- The normalized index `{normalize_label(k): v for k, v in stage_map.items()}`. -/
def norm_index (stage_map : PyDict PyStr) : PyDict PyStr :=
  dictOfList (stage_map.map (fun kv => (normalize_label kv.1, kv.2)))

/-- `fetch_ticket_metrics`: resolve the pipeline (name hint re-read from the
environment with `pipeline_name_default or ""` as `os.getenv` default, id hint
from the environment), build the normalized stage map, then process the labels.
Returns the metrics dict together with the warned-about labels. -/
def fetch_ticket_metrics (hs : HsWorld) (osEnv : EnvMap)
    (pipeline_name_default : Option PyStr) (stage_labels : List PyStr) :
    Except AppError (PyDict Nat × List PyStr) :=
  match get_pipeline_and_stages hs.pipelines
      (some (getenvD osEnv "HUBSPOT_PIPELINE_NAME" (pipeline_name_default.getD [])))
      (osEnv "HUBSPOT_PIPELINE_ID") with
  | Except.error e => Except.error e
  | Except.ok (pipeline_id, stage_map) =>
    process_labels hs.search pipeline_id (norm_index stage_map) stage_labels [] []

/-- `fetch_conversation_metrics`: fixed all-zero placeholders, arguments unused. -/
def fetch_conversation_metrics (_token : PyStr) (_inbox_id : Option PyStr) : PyDict Nat :=
  [(cps "Tudo aberto em conversas", 0),
   (cps "Não atribuído", 0),
   (cps "Última Resposta (cliente)", 0),
   (cps "Tempo máx. última resposta (min)", 0)]

/-- The module constant `STAGE_LABELS`. -/
def STAGE_LABELS : List PyStr :=
  [cps "Novo",
   cps "Coletar Pendências",
   cps "Em tratativa",
   cps "Retorno",
   cps "2ª Tentativa",
   cps "3ª Tentativa",
   cps "Solicita Imagem",
   cps "Financeiro",
   cps "Proativos - CGS",
   cps "Erros automação",
   cps "Centro de Gestão de Serviço",
   cps "Ocorrência",
   cps "Logística",
   cps "Readequação",
   cps "Concluído"]

/-! ## Orchestrator (`main`)

The date handling, image rendering and the Slack client are external
collaborators; `main` is modelled from the configuration reads onward, with the
outcome of the single `files_upload_v2` call represented by `World.slackOk`.
The second result component of `main_run` counts the upload calls made. -/

/-- Everything `main` observes: the process environment, the HubSpot responses,
and whether the one Slack upload call would succeed. -/
structure World where
  osEnv : EnvMap
  hs : HsWorld
  slackOk : Bool

/-- How a run of `main` ends.  `sysExit` is the pre-flight `SystemExit` on
missing Slack/HubSpot configuration; `dryRunOutput` prints the metrics and
returns; `success` posts the report composed from the metrics; `publishError` is
the `RuntimeError` that `post_to_slack` raises, propagating out of `main`. -/
inductive MainResult where
  | sysExit
  | dryRunOutput (metrics : PyDict Nat)
  | success (metrics : PyDict Nat)
  | publishError
  deriving DecidableEq, Repr

/-- `pipeline_name = os.getenv("HUBSPOT_PIPELINE_NAME", "Experiência do Cliente")`. -/
def mainPipelineName (w : World) : PyStr :=
  getenvD w.osEnv "HUBSPOT_PIPELINE_NAME" (cps "Experiência do Cliente")

/-- The call `fetch_ticket_metrics(hs_token, pipeline_name, STAGE_LABELS)` made
by `main`. -/
def main_fetch (w : World) : Except AppError (PyDict Nat × List PyStr) :=
  fetch_ticket_metrics w.hs w.osEnv (some (mainPipelineName w)) STAGE_LABELS

/-- Ticket metrics of `main`: the fetched dict, or on any exception the
zero-filled dict `{label: 0 for label in STAGE_LABELS}`. -/
def main_ticket_metrics (w : World) : PyDict Nat :=
  match main_fetch w with
  | Except.ok (m, _) => m
  | Except.error _ => dictOfList (STAGE_LABELS.map (fun l => (l, 0)))

/-- `metrics = {}; metrics.update(ticket_metrics); metrics.update(conv_metrics)`. -/
def main_metrics (w : World) : PyDict Nat :=
  dictUpdate (dictUpdate [] (main_ticket_metrics w))
    (fetch_conversation_metrics (getenvD w.osEnv "HUBSPOT_TOKEN" []) (w.osEnv "HUBSPOT_INBOX_ID"))

/-- `os.getenv("DRY_RUN", "0") == "1"`. -/
def dryRunOf (w : World) : Bool :=
  getenvD w.osEnv "DRY_RUN" (cps "0") == cps "1"

/-- `main` from the configuration reads onward; the second component counts the
`files_upload_v2` calls performed. -/
def main_run (w : World) : MainResult × Nat :=
  let slack_token := getenvD w.osEnv "SLACK_BOT_TOKEN" []
  let slack_channel := getenvD w.osEnv "SLACK_CHANNEL_ID" []
  if slack_token.isEmpty || slack_channel.isEmpty then (MainResult.sysExit, 0)
  else
    let hs_token := getenvD w.osEnv "HUBSPOT_TOKEN" []
    if hs_token.isEmpty then (MainResult.sysExit, 0)
    else
      let metrics := main_metrics w
      if dryRunOf w then (MainResult.dryRunOutput metrics, 0)
      else if w.slackOk then (MainResult.success metrics, 1)
      else (MainResult.publishError, 1)

/-- A well-formed finite cursor chain of search responses: at least one page,
every page but the last carries a truthy next cursor, the last does not. -/
def okChain : List SearchPage → Bool
  | [] => false
  | [p] => !cursorPresent p.after
  | p :: rest => cursorPresent p.after && okChain rest

/-- The value `fetch_ticket_metrics` records for one configured label: the
result of the stage counter on a truthy normalized match (0 on a counter error,
which in fact aborts the whole fetch), and 0 with a warning otherwise. -/
def label_value (search : PyStr → PyStr → List (Except Nat SearchPage))
    (pipeline_id : PyStr) (norm_stage_map : PyDict PyStr) (label : PyStr) : Nat :=
  let stage_id := dictGet norm_stage_map (normalize_label label)
  if truthyS stage_id then
    match count_tickets_in_stage (search pipeline_id (stage_id.getD [])) with
    | Except.ok n => n
    | Except.error _ => 0
  else 0

/-! ## Concrete scenarios -/

/-- One pipeline "Experiência do Cliente" with a single emoji-decorated stage;
every ticket search answers with one cursorless page of three results. -/
def exWorld : HsWorld where
  pipelines := Except.ok [⟨cps "P1", cps "Experiência do Cliente",
    [⟨cps "Solicita Imagem 📷", cps "S1"⟩]⟩]
  search := fun _ _ => [Except.ok ⟨[1, 2, 3], none⟩]

/-- An empty process environment. -/
def exEnv : EnvMap := fun _ => none

/-- An environment with only the three mandatory tokens set. -/
def envBase : EnvMap := fun k =>
  if k = "SLACK_BOT_TOKEN" then some (cps "xoxb")
  else if k = "SLACK_CHANNEL_ID" then some (cps "C123")
  else if k = "HUBSPOT_TOKEN" then some (cps "hst")
  else none

/-- A world where the pipelines GET itself fails with HTTP 500. -/
def wFail : World where
  osEnv := envBase
  hs := { pipelines := Except.error 500, search := fun _ _ => [] }
  slackOk := true

/-- A world with working HubSpot responses but a failing Slack upload. -/
def wNoSlack : World where
  osEnv := envBase
  hs := exWorld
  slackOk := false

/-- `envBase` with `HUBSPOT_PIPELINE_NAME` set to the empty string. -/
def envEmptyName : EnvMap := fun k =>
  if k = "HUBSPOT_PIPELINE_NAME" then some [] else envBase k

/-- A world whose environment carries an empty pipeline name. -/
def wEmptyName : World where
  osEnv := envEmptyName
  hs := { pipelines := Except.ok [], search := fun _ _ => [] }
  slackOk := true

deriving instance DecidableEq for Except

/-! ## Dictionary lemmas -/

theorem dictMem_eq_false_iff {α : Type} (d : PyDict α) (k : PyStr) :
    dictMem d k = false ↔ k ∉ dictKeys d := by
  induction d with
  | nil => simp [dictMem, dictKeys]
  | cons kv rest ih =>
    simp only [dictMem, dictKeys, List.map_cons, List.mem_cons, Bool.or_eq_false_iff,
      decide_eq_false_iff_not, ih]
    constructor
    · rintro ⟨h1, h2⟩ hor
      rcases hor with h | h
      · exact h1 h.symm
      · exact h2 h
    · intro h
      exact ⟨fun he => h (Or.inl he.symm), fun hm => h (Or.inr hm)⟩

theorem dictGet_set_self {α : Type} (d : PyDict α) (k : PyStr) (v : α)
    (h : dictMem d k = true) : dictGet (dictSet d k v) k = some v := by
  induction d with
  | nil => simp [dictMem] at h
  | cons kv rest ih =>
    by_cases hk : kv.1 = k
    · simp [dictSet, dictGet, hk]
    · simp only [dictMem, Bool.or_eq_true, decide_eq_true_eq, hk, false_or] at h
      simp [dictSet, dictGet, hk, ih h]

theorem dictGet_append_fresh {α : Type} (d : PyDict α) (k : PyStr) (v : α)
    (h : dictMem d k = false) : dictGet (d ++ [(k, v)]) k = some v := by
  induction d with
  | nil => simp [dictGet]
  | cons kv rest ih =>
    simp only [dictMem, Bool.or_eq_false_iff, decide_eq_false_iff_not] at h
    simp [dictGet, h.1, ih h.2]

theorem dictGet_insert_self {α : Type} (d : PyDict α) (k : PyStr) (v : α) :
    dictGet (dictInsert d k v) k = some v := by
  unfold dictInsert
  by_cases h : dictMem d k
  · simp [h, dictGet_set_self _ _ _ h]
  · simp [h, dictGet_append_fresh _ _ _ (by simpa using h)]

theorem dictGet_set_ne {α : Type} (d : PyDict α) (k : PyStr) (v : α) (k2 : PyStr)
    (h : k2 ≠ k) : dictGet (dictSet d k v) k2 = dictGet d k2 := by
  have hne : ¬ k = k2 := fun hh => h hh.symm
  induction d with
  | nil => simp [dictSet]
  | cons kv rest ih =>
    by_cases hk : kv.1 = k
    · have h3 : ¬ kv.1 = k2 := by rw [hk]; exact hne
      simp [dictSet, dictGet, hk, h3, hne, ih]
    · by_cases hk2 : kv.1 = k2 <;> simp [dictSet, dictGet, hk, hk2, hne, h, ih]

theorem dictGet_append_ne {α : Type} (d : PyDict α) (k : PyStr) (v : α) (k2 : PyStr)
    (h : k2 ≠ k) : dictGet (d ++ [(k, v)]) k2 = dictGet d k2 := by
  have hne : ¬ k = k2 := fun hh => h hh.symm
  induction d with
  | nil => simp [dictGet, hne]
  | cons kv rest ih =>
    by_cases hk2 : kv.1 = k2 <;> simp [dictGet, hk2, ih]

theorem dictGet_insert_ne {α : Type} (d : PyDict α) (k : PyStr) (v : α) (k2 : PyStr)
    (h : k2 ≠ k) : dictGet (dictInsert d k v) k2 = dictGet d k2 := by
  unfold dictInsert
  by_cases hm : dictMem d k
  · simp [hm, dictGet_set_ne _ _ _ _ h]
  · simp [hm, dictGet_append_ne _ _ _ _ h]

theorem dictKeys_set {α : Type} (d : PyDict α) (k : PyStr) (v : α) :
    dictKeys (dictSet d k v) = dictKeys d := by
  induction d with
  | nil => rfl
  | cons kv rest ih =>
    by_cases hk : kv.1 = k <;> simp [dictSet, dictKeys, hk] <;>
      simpa [dictKeys] using ih

theorem dictKeys_insert_mem {α : Type} (d : PyDict α) (k : PyStr) (v : α)
    (h : dictMem d k = true) : dictKeys (dictInsert d k v) = dictKeys d := by
  simp [dictInsert, h, dictKeys_set]

theorem dictKeys_insert_fresh {α : Type} (d : PyDict α) (k : PyStr) (v : α)
    (h : dictMem d k = false) : dictKeys (dictInsert d k v) = dictKeys d ++ [k] := by
  simp [dictInsert, h, dictKeys]

theorem dictUpdate_disjoint {α : Type} :
    ∀ (d2 d1 : PyDict α), (∀ k ∈ dictKeys d2, k ∉ dictKeys d1) → (dictKeys d2).Nodup →
      dictUpdate d1 d2 = d1 ++ d2
  | [], d1, _, _ => by simp [dictUpdate]
  | kv :: rest, d1, hdisj, hnodup => by
    have hk : kv.1 ∉ dictKeys d1 := hdisj kv.1 (by simp [dictKeys])
    have hmem : dictMem d1 kv.1 = false := (dictMem_eq_false_iff _ _).mpr hk
    have hstep : dictUpdate d1 (kv :: rest) = dictUpdate (dictInsert d1 kv.1 kv.2) rest := by
      simp [dictUpdate]
    rw [hstep, dictInsert, hmem]
    simp only [Bool.false_eq_true, if_false]
    rw [dictUpdate_disjoint rest (d1 ++ [(kv.1, kv.2)]) ?_ ?_]
    · simp
    · intro k hkmem
      have hxx : k ∈ dictKeys (kv :: rest) := by
        simp only [dictKeys, List.map_cons, List.mem_cons]
        exact Or.inr hkmem
      have h1 : k ∉ dictKeys d1 := hdisj k hxx
      have h2 : k ≠ kv.1 := by
        have hnd := hnodup
        simp only [dictKeys, List.map_cons, List.nodup_cons] at hnd
        intro he
        exact hnd.1 (he ▸ hkmem)
      intro hinkeys
      simp only [dictKeys, List.map_append, List.map_cons, List.map_nil, List.mem_append,
        List.mem_singleton] at hinkeys
      rcases hinkeys with hin | hin
      · exact h1 (by simpa [dictKeys] using hin)
      · exact h2 hin
    · have hnd := hnodup
      simp only [dictKeys, List.map_cons, List.nodup_cons] at hnd
      simpa only [dictKeys] using hnd.2

/-! ## Character-level lemmas for the normalizer -/

theorem py_lower_eq_single {c : Nat} (h : c ≠ 0x130) :
    py_lower c = [py_lower1 c] := by
  unfold py_lower py_lower1
  split_ifs <;> first | rfl | omega

theorem py_lower1_cases (c : Nat) :
    py_lower1 c = c ∨ (py_lower1 c = c + 32 ∧ c ≤ 0xDE) ∨
      (py_lower1 c = 0x3BC ∧ c = 0xB5) := by
  unfold py_lower1
  split_ifs <;> omega

theorem py_lower1_idem (c : Nat) : py_lower1 (py_lower1 c) = py_lower1 c := by
  unfold py_lower1
  split_ifs <;> omega

theorem py_keep_lower1 {c : Nat} (h : py_keep c = true) :
    py_keep (py_lower1 c) = true := by
  simp only [py_keep, py_isWord, py_isSpace, Bool.or_eq_true, decide_eq_true_eq] at h ⊢
  unfold py_lower1
  split_ifs <;> omega

theorem py_isSpace_lower1 (c : Nat) : py_isSpace (py_lower1 c) = py_isSpace c := by
  unfold py_lower1
  split_ifs with h1 h2 h3
  · simp only [py_isSpace, decide_eq_decide]
    omega
  · simp only [py_isSpace, decide_eq_decide]
    omega
  · simp only [py_isSpace, decide_eq_decide]
    omega
  · rfl

theorem dash_lower1_of_keep {c : Nat} (h : py_keep c = true) :
    dash_to_hyphen (py_lower1 c) = py_lower1 c := by
  simp only [py_keep, py_isWord, py_isSpace, Bool.or_eq_true, decide_eq_true_eq] at h
  rcases py_lower1_cases c with hc | ⟨hc, hle⟩ | ⟨hc, hb⟩ <;>
    · rw [hc]
      unfold dash_to_hyphen
      rw [if_neg]
      omega

theorem py_lower1_ne_0x130 {c : Nat} (h : c ≤ 0xFF) : py_lower1 c ≠ 0x130 := by
  unfold py_lower1
  split_ifs <;> omega

theorem flatMap_lower_eq_map {l : PyStr} (h : ∀ c ∈ l, c ≠ 0x130) :
    l.flatMap py_lower = l.map py_lower1 := by
  induction l with
  | nil => rfl
  | cons a t ih =>
    rw [List.flatMap_cons, List.map_cons,
      py_lower_eq_single (h a (List.mem_cons_self a t)), List.singleton_append,
      ih (fun c hc => h c (List.mem_cons_of_mem a hc))]

/-! ## Strip lemmas -/

theorem dropWhile_dropWhile {α : Type} (p : α → Bool) (l : List α) :
    (l.dropWhile p).dropWhile p = l.dropWhile p := by
  induction l with
  | nil => rfl
  | cons a t ih =>
    by_cases h : p a <;> simp [List.dropWhile_cons, h, ih]

theorem dropWhile_eq_self_of_lead {α : Type} {p : α → Bool} {u t : List α}
    (hpre : ∃ r, u ++ r = t) (ht : t.dropWhile p = t) : u.dropWhile p = u := by
  cases u with
  | nil => rfl
  | cons a u2 =>
    obtain ⟨r, hr⟩ := hpre
    by_cases h : p a
    · rw [← hr, List.cons_append, List.dropWhile_cons, if_pos h] at ht
      have hlen := congrArg List.length ht
      have hle := ((u2 ++ r).dropWhile_sublist p).length_le
      simp only [List.length_cons] at hlen
      omega
    · simp [List.dropWhile_cons, h]

theorem py_strip_strip (s : PyStr) : py_strip (py_strip s) = py_strip s := by
  unfold py_strip
  have hA : (((s.dropWhile py_isSpace).reverse.dropWhile py_isSpace).reverse).dropWhile
      py_isSpace = ((s.dropWhile py_isSpace).reverse.dropWhile py_isSpace).reverse := by
    apply dropWhile_eq_self_of_lead (t := s.dropWhile py_isSpace)
    · refine ⟨((s.dropWhile py_isSpace).reverse.takeWhile py_isSpace).reverse, ?_⟩
      rw [← List.reverse_append, List.takeWhile_append_dropWhile, List.reverse_reverse]
    · exact dropWhile_dropWhile _ _
  rw [hA, List.reverse_reverse, dropWhile_dropWhile]

theorem dropWhile_map_lower1 (l : PyStr) :
    (l.map py_lower1).dropWhile py_isSpace =
      (l.dropWhile py_isSpace).map py_lower1 := by
  induction l with
  | nil => rfl
  | cons a t ih =>
    by_cases h : py_isSpace a
    · have h2 : py_isSpace (py_lower1 a) = true := by rw [py_isSpace_lower1]; exact h
      simp [List.dropWhile_cons, h, h2, ih]
    · have h2 : py_isSpace (py_lower1 a) = false := by
        rw [py_isSpace_lower1]
        exact Bool.not_eq_true _ ▸ h
      simp [List.dropWhile_cons, h, h2]

theorem py_strip_map_lower1 (s : PyStr) :
    py_strip (s.map py_lower1) = (py_strip s).map py_lower1 := by
  unfold py_strip
  rw [dropWhile_map_lower1, ← List.map_reverse, dropWhile_map_lower1,
    ← List.map_reverse]

theorem mem_py_strip {x : Nat} {s : PyStr} (h : x ∈ py_strip s) : x ∈ s := by
  unfold py_strip at h
  rw [List.mem_reverse] at h
  have h2 := ((s.dropWhile py_isSpace).reverse.dropWhile_sublist py_isSpace).subset h
  rw [List.mem_reverse] at h2
  exact (s.dropWhile_sublist py_isSpace).subset h2

/-! ## Stage counter lemmas -/

theorem count_chain_sum (pages : List SearchPage) (junk : List (Except Nat SearchPage))
    (h : okChain pages = true) :
    count_tickets_in_stage (pages.map Except.ok ++ junk) =
      Except.ok ((pages.map (fun p => p.results.length)).sum) := by
  induction pages generalizing junk with
  | nil => simp [okChain] at h
  | cons p rest ih =>
    cases rest with
    | nil =>
      simp only [okChain, Bool.not_eq_true'] at h
      simp only [List.map_cons, List.map_nil, List.cons_append, List.nil_append,
        count_tickets_in_stage, List.sum_cons, List.sum_nil, h, Bool.false_eq_true,
        if_false]
      simp
    | cons q rest2 =>
      simp only [okChain, Bool.and_eq_true] at h
      simp only [List.map_cons, List.cons_append, count_tickets_in_stage, List.sum_cons,
        List.append_eq]
      rw [if_pos h.1]
      have ih2 := ih junk h.2
      simp only [List.map_cons, List.cons_append, List.sum_cons, count_tickets_in_stage,
        List.append_eq] at ih2
      rw [ih2]

theorem count_error_abort (oks : List SearchPage) (e : Nat)
    (rest : List (Except Nat SearchPage))
    (h : ∀ p ∈ oks, cursorPresent p.after = true) :
    count_tickets_in_stage (oks.map Except.ok ++ Except.error e :: rest) =
      Except.error e := by
  induction oks with
  | nil => simp [count_tickets_in_stage]
  | cons p ps ih =>
    have hp := h p (List.mem_cons_self p ps)
    have hrest := ih (fun q hq => h q (List.mem_cons_of_mem p hq))
    simp only [List.map_cons, List.cons_append, count_tickets_in_stage, List.append_eq]
    rw [if_pos hp, hrest]

/-! ## Aggregator loop lemmas -/

theorem process_preserve (search : PyStr → PyStr → List (Except Nat SearchPage))
    (pid : PyStr) (nmap : PyDict PyStr) :
    ∀ (labels : List PyStr) (m : PyDict Nat) (w : List PyStr) (m2 : PyDict Nat)
      (w2 : List PyStr),
      process_labels search pid nmap labels m w = Except.ok (m2, w2) →
      ∀ k, k ∉ labels → dictGet m2 k = dictGet m k
  | [], m, w, m2, w2, h, k, _ => by
    simp only [process_labels, Except.ok.injEq, Prod.mk.injEq] at h
    rw [← h.1]
  | label :: rest, m, w, m2, w2, h, k, hk => by
    have hk1 : k ≠ label := fun he => hk (he ▸ List.mem_cons_self label rest)
    have hk2 : k ∉ rest := fun he => hk (List.mem_cons_of_mem label he)
    simp only [process_labels] at h
    by_cases ht : truthyS (dictGet nmap (normalize_label label))
    · rw [if_pos ht] at h
      cases hc : count_tickets_in_stage
          (search pid ((dictGet nmap (normalize_label label)).getD [])) with
      | error e => rw [hc] at h; exact absurd h (by simp)
      | ok n =>
        rw [hc] at h
        rw [process_preserve search pid nmap rest _ _ _ _ h k hk2,
          dictGet_insert_ne _ _ _ _ hk1]
    · rw [if_neg ht] at h
      rw [process_preserve search pid nmap rest _ _ _ _ h k hk2,
        dictGet_insert_ne _ _ _ _ hk1]

theorem process_get (search : PyStr → PyStr → List (Except Nat SearchPage))
    (pid : PyStr) (nmap : PyDict PyStr) :
    ∀ (labels : List PyStr) (m : PyDict Nat) (w : List PyStr) (m2 : PyDict Nat)
      (w2 : List PyStr),
      process_labels search pid nmap labels m w = Except.ok (m2, w2) →
      ∀ label ∈ labels, dictGet m2 label = some (label_value search pid nmap label)
  | [], m, w, m2, w2, h, label, hl => absurd hl (List.not_mem_nil label)
  | l0 :: rest, m, w, m2, w2, h, label, hl => by
    simp only [process_labels] at h
    by_cases ht : truthyS (dictGet nmap (normalize_label l0))
    · rw [if_pos ht] at h
      cases hc : count_tickets_in_stage
          (search pid ((dictGet nmap (normalize_label l0)).getD [])) with
      | error e => rw [hc] at h; exact absurd h (by simp)
      | ok n =>
        rw [hc] at h
        rcases List.mem_cons.mp hl with he | hmem
        · subst he
          by_cases hrest : label ∈ rest
          · exact process_get search pid nmap rest _ _ _ _ h label hrest
          · rw [process_preserve search pid nmap rest _ _ _ _ h label hrest,
              dictGet_insert_self]
            unfold label_value
            rw [if_pos ht, hc]
        · exact process_get search pid nmap rest _ _ _ _ h label hmem
    · rw [if_neg ht] at h
      rcases List.mem_cons.mp hl with he | hmem
      · subst he
        by_cases hrest : label ∈ rest
        · exact process_get search pid nmap rest _ _ _ _ h label hrest
        · rw [process_preserve search pid nmap rest _ _ _ _ h label hrest,
            dictGet_insert_self]
          unfold label_value
          rw [if_neg ht]
      · exact process_get search pid nmap rest _ _ _ _ h label hmem

theorem process_warns_mono (search : PyStr → PyStr → List (Except Nat SearchPage))
    (pid : PyStr) (nmap : PyDict PyStr) :
    ∀ (labels : List PyStr) (m : PyDict Nat) (w : List PyStr) (m2 : PyDict Nat)
      (w2 : List PyStr),
      process_labels search pid nmap labels m w = Except.ok (m2, w2) →
      ∀ x ∈ w, x ∈ w2
  | [], m, w, m2, w2, h, x, hx => by
    simp only [process_labels, Except.ok.injEq, Prod.mk.injEq] at h
    exact h.2 ▸ hx
  | label :: rest, m, w, m2, w2, h, x, hx => by
    simp only [process_labels] at h
    by_cases ht : truthyS (dictGet nmap (normalize_label label))
    · rw [if_pos ht] at h
      cases hc : count_tickets_in_stage
          (search pid ((dictGet nmap (normalize_label label)).getD [])) with
      | error e => rw [hc] at h; exact absurd h (by simp)
      | ok n =>
        rw [hc] at h
        exact process_warns_mono search pid nmap rest _ _ _ _ h x hx
    · rw [if_neg ht] at h
      exact process_warns_mono search pid nmap rest _ _ _ _ h x
        (List.mem_append_left _ hx)

theorem process_warns (search : PyStr → PyStr → List (Except Nat SearchPage))
    (pid : PyStr) (nmap : PyDict PyStr) :
    ∀ (labels : List PyStr) (m : PyDict Nat) (w : List PyStr) (m2 : PyDict Nat)
      (w2 : List PyStr),
      process_labels search pid nmap labels m w = Except.ok (m2, w2) →
      ∀ label ∈ labels, truthyS (dictGet nmap (normalize_label label)) = false →
        label ∈ w2
  | [], m, w, m2, w2, h, label, hl, hfalse => absurd hl (List.not_mem_nil label)
  | l0 :: rest, m, w, m2, w2, h, label, hl, hfalse => by
    simp only [process_labels] at h
    rcases List.mem_cons.mp hl with he | hmem
    · subst he
      rw [if_neg (by rw [hfalse]; exact Bool.false_ne_true)] at h
      exact process_warns_mono search pid nmap rest _ _ _ _ h label
        (List.mem_append_right _ (List.mem_singleton.mpr rfl))
    · by_cases ht : truthyS (dictGet nmap (normalize_label l0))
      · rw [if_pos ht] at h
        cases hc : count_tickets_in_stage
            (search pid ((dictGet nmap (normalize_label l0)).getD [])) with
        | error e => rw [hc] at h; exact absurd h (by simp)
        | ok n =>
          rw [hc] at h
          exact process_warns search pid nmap rest _ _ _ _ h label hmem hfalse
      · rw [if_neg ht] at h
        exact process_warns search pid nmap rest _ _ _ _ h label hmem hfalse

theorem process_ok_counts (search : PyStr → PyStr → List (Except Nat SearchPage))
    (pid : PyStr) (nmap : PyDict PyStr) :
    ∀ (labels : List PyStr) (m : PyDict Nat) (w : List PyStr)
      (res : PyDict Nat × List PyStr),
      process_labels search pid nmap labels m w = Except.ok res →
      ∀ label ∈ labels, ∀ sid, dictGet nmap (normalize_label label) = some sid →
        sid ≠ [] → ∃ n, count_tickets_in_stage (search pid sid) = Except.ok n
  | [], m, w, res, h, label, hl, sid, hsid, hne => absurd hl (List.not_mem_nil label)
  | l0 :: rest, m, w, res, h, label, hl, sid, hsid, hne => by
    simp only [process_labels] at h
    rcases List.mem_cons.mp hl with he | hmem
    · subst he
      rw [hsid] at h
      have ht : truthyS (some sid) = true := by
        simp [truthyS, List.isEmpty_eq_true, hne]
      rw [if_pos ht] at h
      cases hc : count_tickets_in_stage (search pid sid) with
      | error e =>
        rw [show (some sid).getD [] = sid from rfl, hc] at h
        exact absurd h (by simp)
      | ok n => exact ⟨n, hc ▸ rfl⟩
    · by_cases ht : truthyS (dictGet nmap (normalize_label l0))
      · rw [if_pos ht] at h
        cases hc : count_tickets_in_stage
            (search pid ((dictGet nmap (normalize_label l0)).getD [])) with
        | error e => rw [hc] at h; exact absurd h (by simp)
        | ok n =>
          rw [hc] at h
          exact process_ok_counts search pid nmap rest _ _ _ h label hmem sid hsid hne
      · rw [if_neg ht] at h
        exact process_ok_counts search pid nmap rest _ _ _ h label hmem sid hsid hne

theorem process_keys (search : PyStr → PyStr → List (Except Nat SearchPage))
    (pid : PyStr) (nmap : PyDict PyStr) :
    ∀ (labels : List PyStr) (m : PyDict Nat) (w : List PyStr) (m2 : PyDict Nat)
      (w2 : List PyStr),
      process_labels search pid nmap labels m w = Except.ok (m2, w2) →
      labels.Nodup → (∀ l ∈ labels, l ∉ dictKeys m) →
      dictKeys m2 = dictKeys m ++ labels
  | [], m, w, m2, w2, h, _, _ => by
    simp only [process_labels, Except.ok.injEq, Prod.mk.injEq] at h
    rw [← h.1, List.append_nil]
  | l0 :: rest, m, w, m2, w2, h, hnodup, hnotin => by
    have hnd := List.nodup_cons.mp hnodup
    have hfresh : dictMem m l0 = false :=
      (dictMem_eq_false_iff _ _).mpr (hnotin l0 (List.mem_cons_self l0 rest))
    have hnotin2 : ∀ (v : Nat) (l : PyStr), l ∈ rest →
        l ∉ dictKeys (dictInsert m l0 v) := by
      intro v l hl
      rw [dictKeys_insert_fresh _ _ _ hfresh]
      intro hmem
      rcases List.mem_append.mp hmem with hm | hm
      · exact hnotin l (List.mem_cons_of_mem l0 hl) hm
      · exact hnd.1 (List.mem_singleton.mp hm ▸ hl)
    simp only [process_labels] at h
    by_cases ht : truthyS (dictGet nmap (normalize_label l0))
    · rw [if_pos ht] at h
      cases hc : count_tickets_in_stage
          (search pid ((dictGet nmap (normalize_label l0)).getD [])) with
      | error e => rw [hc] at h; exact absurd h (by simp)
      | ok n =>
        rw [hc] at h
        rw [process_keys search pid nmap rest _ _ _ _ h hnd.2 (hnotin2 n),
          dictKeys_insert_fresh _ _ _ hfresh, List.append_assoc, List.singleton_append]
    · rw [if_neg ht] at h
      rw [process_keys search pid nmap rest _ _ _ _ h hnd.2 (hnotin2 0),
        dictKeys_insert_fresh _ _ _ hfresh, List.append_assoc, List.singleton_append]

theorem process_no_config_error (search : PyStr → PyStr → List (Except Nat SearchPage))
    (pid : PyStr) (nmap : PyDict PyStr) :
    ∀ (labels : List PyStr) (m : PyDict Nat) (w : List PyStr),
      process_labels search pid nmap labels m w ≠
        Except.error AppError.ConfigurationMissing
  | [], m, w => by simp [process_labels]
  | label :: rest, m, w => by
    simp only [process_labels]
    by_cases ht : truthyS (dictGet nmap (normalize_label label))
    · rw [if_pos ht]
      cases hc : count_tickets_in_stage
          (search pid ((dictGet nmap (normalize_label label)).getD [])) with
      | error e => simp
      | ok n => exact process_no_config_error search pid nmap rest _ _
    · rw [if_neg ht]
      exact process_no_config_error search pid nmap rest _ _

/-! ## Resolver, fetch and orchestrator lemmas -/

theorem resolver_no_config_of_name (resp : Except Nat (List Pipeline))
    (nameEnv idEnv : Option PyStr) (h : truthyS nameEnv = true) :
    get_pipeline_and_stages resp nameEnv idEnv ≠
      Except.error AppError.ConfigurationMissing := by
  unfold get_pipeline_and_stages
  cases resp with
  | error e => simp
  | ok results =>
    by_cases hid : truthyS idEnv
    · cases hfind : results.find? (fun p => p.id == idEnv.getD []) <;>
        simp [hid, hfind]
    · cases hfind : results.find? (fun p => (py_strip p.label).map py_lower ==
          (py_strip (nameEnv.getD [])).map py_lower) <;>
        simp [hid, h, hfind]

theorem fetch_ok_elim (hs : HsWorld) (osEnv : EnvMap) (dflt : Option PyStr)
    (labels : List PyStr) (r : PyDict Nat × List PyStr)
    (h : fetch_ticket_metrics hs osEnv dflt labels = Except.ok r) :
    ∃ pid smap,
      get_pipeline_and_stages hs.pipelines
          (some (getenvD osEnv "HUBSPOT_PIPELINE_NAME" (dflt.getD [])))
          (osEnv "HUBSPOT_PIPELINE_ID") = Except.ok (pid, smap) ∧
        process_labels hs.search pid (norm_index smap) labels [] [] = Except.ok r := by
  unfold fetch_ticket_metrics at h
  cases hres : get_pipeline_and_stages hs.pipelines
      (some (getenvD osEnv "HUBSPOT_PIPELINE_NAME" (dflt.getD [])))
      (osEnv "HUBSPOT_PIPELINE_ID") with
  | error e => rw [hres] at h; exact absurd h (by simp)
  | ok pr =>
    obtain ⟨pid, smap⟩ := pr
    rw [hres] at h
    exact ⟨pid, smap, rfl, h⟩

theorem fetch_no_config (hs : HsWorld) (osEnv : EnvMap) (dflt : Option PyStr)
    (labels : List PyStr)
    (h : truthyS (some (getenvD osEnv "HUBSPOT_PIPELINE_NAME" (dflt.getD []))) = true) :
    fetch_ticket_metrics hs osEnv dflt labels ≠
      Except.error AppError.ConfigurationMissing := by
  unfold fetch_ticket_metrics
  cases hres : get_pipeline_and_stages hs.pipelines
      (some (getenvD osEnv "HUBSPOT_PIPELINE_NAME" (dflt.getD [])))
      (osEnv "HUBSPOT_PIPELINE_ID") with
  | error e =>
    intro hcontra
    simp only [Except.error.injEq] at hcontra
    rw [hcontra] at hres
    exact resolver_no_config_of_name _ _ _ h hres
  | ok pr =>
    obtain ⟨pid, smap⟩ := pr
    exact process_no_config_error hs.search pid (norm_index smap) labels [] []

theorem main_ticket_keys (w : World) :
    dictKeys (main_ticket_metrics w) = STAGE_LABELS := by
  unfold main_ticket_metrics
  cases hf : main_fetch w with
  | ok r =>
    obtain ⟨pid, smap, hres, hproc⟩ :=
      fetch_ok_elim w.hs w.osEnv (some (mainPipelineName w)) STAGE_LABELS r hf
    obtain ⟨m, warns⟩ := r
    have hkeys := process_keys w.hs.search pid (norm_index smap) STAGE_LABELS [] []
      m warns hproc (by decide) (by simp [dictKeys])
    simpa [dictKeys] using hkeys
  | error e =>
    show dictKeys (dictOfList (STAGE_LABELS.map (fun l => (l, 0)))) = STAGE_LABELS
    decide

theorem main_metrics_eq (w : World) :
    main_metrics w = main_ticket_metrics w ++ fetch_conversation_metrics [] none := by
  unfold main_metrics
  have h1 : dictKeys (main_ticket_metrics w) = STAGE_LABELS := main_ticket_keys w
  have hnodup : (dictKeys (main_ticket_metrics w)).Nodup := by rw [h1]; decide
  rw [dictUpdate_disjoint (main_ticket_metrics w) []
    (fun k _ hk => (List.not_mem_nil k) hk) hnodup, List.nil_append]
  have hconv : fetch_conversation_metrics (getenvD w.osEnv "HUBSPOT_TOKEN" [])
      (w.osEnv "HUBSPOT_INBOX_ID") = fetch_conversation_metrics [] none := rfl
  rw [hconv]
  have hdisj : ∀ k ∈ dictKeys (fetch_conversation_metrics [] none),
      k ∉ dictKeys (main_ticket_metrics w) := by
    rw [h1]
    have hall : ∀ k ∈ dictKeys (fetch_conversation_metrics [] none),
        k ∉ STAGE_LABELS := by decide
    exact hall
  exact dictUpdate_disjoint (fetch_conversation_metrics [] none)
    (main_ticket_metrics w) hdisj (by decide)

/-! ## The claims -/

/-- C1: for every finite cursor chain, the result of the Stage Counter is the sum of
the lengths of the result arrays of all pages visited — the loop visits a next
page exactly while the response carries a non-empty next-cursor token (and never
touches responses past the cursorless page); in particular three pages of sizes
100, 100, 37 with cursors on the first two responses and none on the third give
237, and a single page of size 0 with no cursor gives 0. -/
theorem claim_C1 :
    (∀ (pages : List SearchPage) (junk : List (Except Nat SearchPage)),
      okChain pages = true →
      count_tickets_in_stage (pages.map Except.ok ++ junk) =
        Except.ok ((pages.map (fun p => p.results.length)).sum)) ∧
    count_tickets_in_stage
      [Except.ok ⟨List.replicate 100 0, some (cps "c1")⟩,
       Except.ok ⟨List.replicate 100 0, some (cps "c2")⟩,
       Except.ok ⟨List.replicate 37 0, none⟩] = Except.ok 237 ∧
    count_tickets_in_stage [Except.ok ⟨[], none⟩] = Except.ok 0 :=
  ⟨fun pages junk h => count_chain_sum pages junk h, by decide, by decide⟩

/-- Witness for C1: the general part applied to a concrete two-page chain. -/
theorem claim_C1_witness :
    count_tickets_in_stage
      [Except.ok ⟨[5], some (cps "x")⟩, Except.ok ⟨[7, 8], none⟩] = Except.ok 3 := by
  have h := claim_C1.1 [⟨[5], some (cps "x")⟩, ⟨[7, 8], none⟩] [] (by decide)
  simpa using h

/-- C2 as stated is false: `normalize_label` does not collapse internal runs of
whitespace and turns the en dash into a hyphen rather than removing it, so
neither the triple-space input nor the en-dash input normalizes to
`"solicita imagem"`; only the emoji input does. -/
theorem claim_C2_counterexample :
    normalize_label (cps "solicita   imagem") ≠ normalize_label (cps "solicita imagem") ∧
    normalize_label (cps "Solicita–Imagem") ≠ normalize_label (cps "solicita imagem") :=
  ⟨by decide, by decide⟩

/-- C2 (amended): `normalize_label "Solicita Imagem 📷"` equals the canonical
form `normalize_label "solicita imagem" = "solicita imagem"`; the triple-space
input keeps its internal spaces, and the en-dash input normalizes to
`"solicita-imagem"`. -/
theorem claim_C2 :
    normalize_label (cps "Solicita Imagem 📷") = normalize_label (cps "solicita imagem") ∧
    normalize_label (cps "solicita imagem") = cps "solicita imagem" ∧
    normalize_label (cps "solicita   imagem") = cps "solicita   imagem" ∧
    normalize_label (cps "Solicita–Imagem") = cps "solicita-imagem" :=
  ⟨by decide, by decide, by decide, by decide⟩

/-- C3 as stated is false on the real code: İ (U+0130) is a word character of
the regex class, its full lowercase under `str.lower` is the two code points
i + combining dot above, and a second pass strips the combining dot (U+0307 is
outside `[\w\sÀ-ÿ-]`), so normalizing twice differs from normalizing once. -/
theorem claim_C3_counterexample :
    normalize_label (normalize_label (cps "İ")) ≠ normalize_label (cps "İ") ∧
    normalize_label (cps "İ") = [0x69, 0x307] ∧
    normalize_label (normalize_label (cps "İ")) = [0x69] :=
  ⟨by decide, by decide, by decide⟩

/-- C3 (amended): the label normalizer is idempotent on every string whose code
points all lie at or below U+00FF — in particular on every label this program
handles — though not on arbitrary Unicode strings. -/
theorem claim_C3 (x : PyStr) (hx : ∀ c ∈ x, c ≤ 0xFF) :
    normalize_label (normalize_label x) = normalize_label x := by
  unfold normalize_label
  have hvchar : ∀ c ∈ py_strip ((x.map dash_to_hyphen).filter py_keep),
      py_keep c = true ∧ c ≤ 0xFF := by
    intro c hc
    have hmem := mem_py_strip hc
    refine ⟨(List.mem_filter.mp hmem).2, ?_⟩
    obtain ⟨b, hb, hbc⟩ := List.mem_map.mp (List.mem_filter.mp hmem).1
    have hble := hx b hb
    unfold dash_to_hyphen at hbc
    split_ifs at hbc <;> omega
  set v := py_strip ((x.map dash_to_hyphen).filter py_keep) with hv
  have hbridge : v.flatMap py_lower = v.map py_lower1 :=
    flatMap_lower_eq_map (fun c hc => by have := (hvchar c hc).2; omega)
  rw [hbridge]
  have hychar : ∀ d ∈ v.map py_lower1, py_keep d = true ∧ d ≠ 0x130 := by
    intro d hd
    obtain ⟨b, hb, hbd⟩ := List.mem_map.mp hd
    obtain ⟨hkb, hble⟩ := hvchar b hb
    exact ⟨hbd ▸ py_keep_lower1 hkb, hbd ▸ py_lower1_ne_0x130 hble⟩
  have h1 : (v.map py_lower1).map dash_to_hyphen = v.map py_lower1 := by
    rw [List.map_map]
    exact List.map_congr_left (fun a ha => dash_lower1_of_keep (hvchar a ha).1)
  have h2 : (v.map py_lower1).filter py_keep = v.map py_lower1 := by
    rw [List.filter_eq_self]
    intro a ha
    exact (hychar a ha).1
  have h3 : py_strip (v.map py_lower1) = v.map py_lower1 := by
    rw [py_strip_map_lower1, hv, py_strip_strip]
  rw [h1, h2, h3,
    flatMap_lower_eq_map (fun d hd => (hychar d hd).2), List.map_map]
  exact List.map_congr_left (fun a _ => py_lower1_idem a)

/-- Witness for C3: idempotence applied at a concrete Latin-1 label. -/
theorem claim_C3_witness :
    normalize_label (normalize_label (cps "2ª Tentativa")) =
      normalize_label (cps "2ª Tentativa") :=
  claim_C3 (cps "2ª Tentativa") (by decide)

/-- C4: pipeline resolution follows strict priority.  With a truthy id hint the
first pipeline with exactly that identifier is selected, and if none matches the
resolver fails with `PipelineNotFound` whatever the name hint is (no fallback);
with no truthy id hint but a truthy name hint the first pipeline whose label
matches case-insensitively after trimming is selected, and if none matches it
fails with `PipelineNotFound`; with neither hint it fails with
`ConfigurationMissing` and never picks an arbitrary pipeline. -/
theorem claim_C4 (results : List Pipeline) (nameEnv idEnv : Option PyStr) :
    (truthyS idEnv = true → (∀ p ∈ results, p.id ≠ idEnv.getD []) →
      get_pipeline_and_stages (Except.ok results) nameEnv idEnv =
        Except.error AppError.PipelineNotFound) ∧
    (truthyS idEnv = true →
      ∀ p, results.find? (fun q => q.id == idEnv.getD []) = some p →
      p.id = idEnv.getD [] ∧
      get_pipeline_and_stages (Except.ok results) nameEnv idEnv =
        Except.ok (p.id, dictOfList (p.stages.map (fun st => (st.label, st.id))))) ∧
    (truthyS idEnv = false → truthyS nameEnv = true →
      (∀ p ∈ results, (py_strip p.label).map py_lower ≠
        (py_strip (nameEnv.getD [])).map py_lower) →
      get_pipeline_and_stages (Except.ok results) nameEnv idEnv =
        Except.error AppError.PipelineNotFound) ∧
    (truthyS idEnv = false → truthyS nameEnv = true →
      ∀ p, results.find? (fun q => (py_strip q.label).map py_lower ==
          (py_strip (nameEnv.getD [])).map py_lower) = some p →
      (py_strip p.label).map py_lower = (py_strip (nameEnv.getD [])).map py_lower ∧
      get_pipeline_and_stages (Except.ok results) nameEnv idEnv =
        Except.ok (p.id, dictOfList (p.stages.map (fun st => (st.label, st.id))))) ∧
    (truthyS idEnv = false → truthyS nameEnv = false →
      get_pipeline_and_stages (Except.ok results) nameEnv idEnv =
        Except.error AppError.ConfigurationMissing) := by
  refine ⟨?_, ?_, ?_, ?_, ?_⟩
  · intro hid hnone
    have hfind : results.find? (fun q => q.id == idEnv.getD []) = none :=
      List.find?_eq_none.mpr (fun p hp => by simpa using hnone p hp)
    simp [get_pipeline_and_stages, hid, hfind]
  · intro hid p hfind
    refine ⟨by simpa using List.find?_some hfind, ?_⟩
    simp [get_pipeline_and_stages, hid, hfind]
  · intro hid hname hnone
    have hfind : results.find? (fun q => (py_strip q.label).map py_lower ==
        (py_strip (nameEnv.getD [])).map py_lower) = none :=
      List.find?_eq_none.mpr (fun p hp => by simpa using hnone p hp)
    simp [get_pipeline_and_stages, hid, hname, hfind]
  · intro hid hname p hfind
    refine ⟨by simpa using List.find?_some hfind, ?_⟩
    simp [get_pipeline_and_stages, hid, hname, hfind]
  · intro hid hname
    simp [get_pipeline_and_stages, hid, hname]

/-- Witness for C4: with an id hint matching nothing the resolver fails with
`PipelineNotFound` even though the name hint matches, and with neither hint it
fails with `ConfigurationMissing`. -/
theorem claim_C4_witness :
    get_pipeline_and_stages (Except.ok [⟨cps "7", cps "Alpha", []⟩])
      (some (cps "Alpha")) (some (cps "8")) =
      Except.error AppError.PipelineNotFound ∧
    get_pipeline_and_stages (Except.ok [⟨cps "7", cps "Alpha", []⟩]) none none =
      Except.error AppError.ConfigurationMissing := by
  constructor
  · exact (claim_C4 [⟨cps "7", cps "Alpha", []⟩] (some (cps "Alpha"))
      (some (cps "8"))).1 (by decide) (by decide)
  · exact (claim_C4 [⟨cps "7", cps "Alpha", []⟩] none none).2.2.2.2
      (by decide) (by decide)

/-- C5: for each configured label, the aggregator records the result of the
stage counter when the normalized form of the label hits a truthy entry of the normalized
stage index, and records exactly 0 together with a warning when it does not. -/
theorem claim_C5 (hs : HsWorld) (osEnv : EnvMap) (dflt : Option PyStr)
    (stage_labels : List PyStr) (pid : PyStr) (smap : PyDict PyStr)
    (metrics : PyDict Nat) (warns : List PyStr)
    (hres : get_pipeline_and_stages hs.pipelines
        (some (getenvD osEnv "HUBSPOT_PIPELINE_NAME" (dflt.getD [])))
        (osEnv "HUBSPOT_PIPELINE_ID") = Except.ok (pid, smap))
    (hfetch : fetch_ticket_metrics hs osEnv dflt stage_labels =
      Except.ok (metrics, warns)) :
    ∀ label ∈ stage_labels,
      (∀ sid, dictGet (norm_index smap) (normalize_label label) = some sid →
        sid ≠ [] →
        ∃ n, count_tickets_in_stage (hs.search pid sid) = Except.ok n ∧
          dictGet metrics label = some n) ∧
      (truthyS (dictGet (norm_index smap) (normalize_label label)) = false →
        dictGet metrics label = some 0 ∧ label ∈ warns) := by
  have hproc : process_labels hs.search pid (norm_index smap) stage_labels [] [] =
      Except.ok (metrics, warns) := by
    unfold fetch_ticket_metrics at hfetch
    rw [hres] at hfetch
    exact hfetch
  intro label hl
  constructor
  · intro sid hsid hne
    have ht : truthyS (some sid) = true := by
      cases sid with
      | nil => exact absurd rfl hne
      | cons a t => rfl
    obtain ⟨n, hn⟩ := process_ok_counts hs.search pid (norm_index smap) stage_labels
      [] [] (metrics, warns) hproc label hl sid hsid hne
    refine ⟨n, hn, ?_⟩
    have hget := process_get hs.search pid (norm_index smap) stage_labels
      [] [] metrics warns hproc label hl
    rw [hget]
    unfold label_value
    rw [hsid]
    simp [ht, hn]
  · intro hfalse
    have hget := process_get hs.search pid (norm_index smap) stage_labels
      [] [] metrics warns hproc label hl
    refine ⟨?_, process_warns hs.search pid (norm_index smap) stage_labels
      [] [] metrics warns hproc label hl hfalse⟩
    rw [hget]
    unfold label_value
    rw [if_neg (by rw [hfalse]; exact Bool.false_ne_true)]

/-- Witness for C5: configured "Solicita Imagem" matches the raw stage label
"Solicita Imagem 📷" with id "S1" and gets the count 3 of that stage, while the
unmatched label "Inexistente" gets 0 and a warning. -/
theorem claim_C5_witness :
    (∃ n, count_tickets_in_stage (exWorld.search (cps "P1") (cps "S1")) =
        Except.ok n ∧
      dictGet [(cps "Solicita Imagem", 3), (cps "Inexistente", 0)]
        (cps "Solicita Imagem") = some n) ∧
    dictGet [(cps "Solicita Imagem", 3), (cps "Inexistente", 0)]
      (cps "Inexistente") = some 0 ∧
    cps "Inexistente" ∈ [cps "Inexistente"] := by
  have h := claim_C5 exWorld exEnv (some (cps "Experiência do Cliente"))
    [cps "Solicita Imagem", cps "Inexistente"] (cps "P1")
    [(cps "Solicita Imagem 📷", cps "S1")]
    [(cps "Solicita Imagem", 3), (cps "Inexistente", 0)] [cps "Inexistente"]
    (by decide) (by decide)
  refine ⟨?_, ?_⟩
  · exact (h (cps "Solicita Imagem") (by decide)).1 (cps "S1") (by decide) (by decide)
  · exact (h (cps "Inexistente") (by decide)).2 (by decide)

/-- C6: whatever the environment and the HubSpot responses are, the final
metrics map of `main` has exactly the 15 configured stage labels followed by
the four fixed conversation keys (19 entries), and all its values are
non-negative integers. -/
theorem claim_C6 (w : World) :
    dictKeys (main_metrics w) =
      STAGE_LABELS ++ [cps "Tudo aberto em conversas", cps "Não atribuído",
        cps "Última Resposta (cliente)", cps "Tempo máx. última resposta (min)"] ∧
    (main_metrics w).length = 19 ∧
    ∀ kv ∈ main_metrics w, 0 ≤ (kv.2 : Int) := by
  have he := main_metrics_eq w
  have hk := main_ticket_keys w
  refine ⟨?_, ?_, ?_⟩
  · rw [he]
    unfold dictKeys at hk ⊢
    rw [List.map_append, hk]
    rfl
  · rw [he, List.length_append]
    have hlen : (main_ticket_metrics w).length = 15 := by
      have hc := congrArg List.length hk
      simpa [dictKeys] using hc
    rw [hlen]
    rfl
  · intro kv _
    exact Int.natCast_nonneg kv.2

/-- C7: any exception from the ticket-metric fetch is caught by `main` and
replaced with the all-zero map over the configured labels, after which `main`
still composes the metrics map and, unless dry-run is set, still performs the
one publish attempt (successful or not). -/
theorem claim_C7 (w : World) (e : AppError)
    (hslack : (getenvD w.osEnv "SLACK_BOT_TOKEN" []).isEmpty = false)
    (hchan : (getenvD w.osEnv "SLACK_CHANNEL_ID" []).isEmpty = false)
    (hhub : (getenvD w.osEnv "HUBSPOT_TOKEN" []).isEmpty = false)
    (hf : main_fetch w = Except.error e) :
    main_ticket_metrics w = dictOfList (STAGE_LABELS.map (fun l => (l, 0))) ∧
    (dryRunOf w = true → main_run w = (MainResult.dryRunOutput (main_metrics w), 0)) ∧
    (dryRunOf w = false → (main_run w).2 = 1 ∧
      (w.slackOk = true → (main_run w).1 = MainResult.success (main_metrics w)) ∧
      (w.slackOk = false → (main_run w).1 = MainResult.publishError)) := by
  have hticket : main_ticket_metrics w =
      dictOfList (STAGE_LABELS.map (fun l => (l, 0))) := by
    unfold main_ticket_metrics
    rw [hf]
  refine ⟨hticket, ?_, ?_⟩
  · intro hdry
    simp [main_run, hslack, hchan, hhub, hdry]
  · intro hdry
    refine ⟨?_, ?_, ?_⟩
    · cases hok : w.slackOk <;> simp [main_run, hslack, hchan, hhub, hdry, hok]
    · intro hok
      simp [main_run, hslack, hchan, hhub, hdry, hok]
    · intro hok
      simp [main_run, hslack, hchan, hhub, hdry, hok]

/-- Witness for C7: with the pipelines GET failing with HTTP 500 the ticket
metrics degrade to all zeros and the publish step is still attempted once. -/
theorem claim_C7_witness :
    main_ticket_metrics wFail = dictOfList (STAGE_LABELS.map (fun l => (l, 0))) ∧
    (main_run wFail).2 = 1 := by
  have h := claim_C7 wFail (AppError.HttpError 500)
    (by decide) (by decide) (by decide) (by decide)
  exact ⟨h.1, (h.2.2 (by decide)).1⟩

/-- C8: a non-2xx response aborts the stage count with the raised `HTTPError`
instead of a partial total; when the counter of the first configured label fails,
the whole aggregation aborts with that cause attached; and an aggregation that
returns at all had every visited counter succeed. -/
theorem claim_C8 :
    (∀ (oks : List SearchPage) (e : Nat) (rest : List (Except Nat SearchPage)),
      (∀ p ∈ oks, cursorPresent p.after = true) →
      count_tickets_in_stage (oks.map Except.ok ++ Except.error e :: rest) =
        Except.error e) ∧
    (∀ (search : PyStr → PyStr → List (Except Nat SearchPage)) (pid : PyStr)
      (nmap : PyDict PyStr) (label : PyStr) (rest : List PyStr) (m : PyDict Nat)
      (w : List PyStr) (e : Nat) (sid : PyStr),
      dictGet nmap (normalize_label label) = some sid → sid ≠ [] →
      count_tickets_in_stage (search pid sid) = Except.error e →
      process_labels search pid nmap (label :: rest) m w =
        Except.error (AppError.HttpError e)) ∧
    (∀ (search : PyStr → PyStr → List (Except Nat SearchPage)) (pid : PyStr)
      (nmap : PyDict PyStr) (labels : List PyStr) (m : PyDict Nat) (w : List PyStr)
      (res : PyDict Nat × List PyStr),
      process_labels search pid nmap labels m w = Except.ok res →
      ∀ label ∈ labels, ∀ sid, dictGet nmap (normalize_label label) = some sid →
        sid ≠ [] → ∃ n, count_tickets_in_stage (search pid sid) = Except.ok n) := by
  refine ⟨count_error_abort, ?_, process_ok_counts⟩
  intro search pid nmap label rest m w e sid hsid hne hcount
  have ht : truthyS (some sid) = true := by
    cases sid with
    | nil => exact absurd rfl hne
    | cons a t => rfl
  simp only [process_labels]
  rw [hsid, if_pos ht]
  simp only [Option.getD_some]
  rw [hcount]

/-- Witness for C8: a failing second page aborts a count with the error, and a
failing counter on the first label aborts the aggregation with the cause. -/
theorem claim_C8_witness :
    count_tickets_in_stage [Except.ok ⟨[1], some (cps "n")⟩, Except.error 7] =
      Except.error 7 ∧
    process_labels (fun _ _ => [Except.error 7]) (cps "P") [(cps "a", cps "S")]
      [cps "a"] [] [] = Except.error (AppError.HttpError 7) := by
  constructor
  · have h := claim_C8.1 [⟨[1], some (cps "n")⟩] 7 [] (by decide)
    simpa using h
  · exact claim_C8.2.1 (fun _ _ => [Except.error 7]) (cps "P") [(cps "a", cps "S")]
      (cps "a") [] [] [] 7 (cps "S") (by decide) (by decide) (by decide)

/-- C9: a failed publish is never degraded — with publishing due and the upload
failing, `main` ends in the propagated publish error after exactly one upload
attempt, not in a successful exit. -/
theorem claim_C9 (w : World)
    (hslack : (getenvD w.osEnv "SLACK_BOT_TOKEN" []).isEmpty = false)
    (hchan : (getenvD w.osEnv "SLACK_CHANNEL_ID" []).isEmpty = false)
    (hhub : (getenvD w.osEnv "HUBSPOT_TOKEN" []).isEmpty = false)
    (hdry : dryRunOf w = false) (hpub : w.slackOk = false) :
    main_run w = (MainResult.publishError, 1) := by
  simp [main_run, hslack, hchan, hhub, hdry, hpub]

/-- Witness for C9: a concrete world with a failing Slack upload. -/
theorem claim_C9_witness : main_run wNoSlack = (MainResult.publishError, 1) :=
  claim_C9 wNoSlack (by decide) (by decide) (by decide) (by decide) (by decide)

/-- C10 as stated is false: setting `HUBSPOT_PIPELINE_NAME` to the empty string
(with no id hint) makes `os.getenv` return that empty string instead of the
hardcoded default, the name hint is falsy, and the fetch call of `main` does reach
the `ConfigurationMissing` branch. -/
theorem claim_C10_counterexample :
    main_fetch wEmptyName = Except.error AppError.ConfigurationMissing := by decide

/-- C10 (amended): unless `HUBSPOT_PIPELINE_NAME` is set to the empty string,
the `ConfigurationMissing` branch is unreachable through `main`: when the
variable is unset, `main` supplies the hardcoded default name
"Experiência do Cliente", and any set non-empty value is a truthy name hint. -/
theorem claim_C10 (w : World) (h : w.osEnv "HUBSPOT_PIPELINE_NAME" ≠ some []) :
    main_fetch w ≠ Except.error AppError.ConfigurationMissing := by
  unfold main_fetch
  apply fetch_no_config
  cases hn : w.osEnv "HUBSPOT_PIPELINE_NAME" with
  | none => simp [truthyS, getenvD, mainPipelineName, hn, cps]
  | some s =>
    have hs : s ≠ [] := fun he => h (by rw [hn, he])
    cases s with
    | nil => exact absurd rfl hs
    | cons a t => simp [truthyS, getenvD, hn]

/-- Witness for C10: a world with the pipeline-name variable unset never
produces `ConfigurationMissing` from the fetch call of `main`. -/
theorem claim_C10_witness :
    main_fetch wFail ≠ Except.error AppError.ConfigurationMissing :=
  claim_C10 wFail (by decide)

